import Mathlib

/-!
Verification of the yaoaic disk cache (TTL cache with memoized-loader pattern).

The embedding models:
- the contents of the cache directory as a finite map from file names to byte
  lists (FS);
- TOML (de)serialization abstractly as a Codec: a pair of a total serializer
  and a partial deserializer (toml never fails to serialize the types used
  here, and deserialization fails exactly on non-conforming bytes);
- Rust wall-clock instants and Durations as Nat (duration since UNIX_EPOCH);
  the Duration subtraction now - created panics when created > now, which is
  modeled by the distinguished outcome Res.panicked;
- the library cache of cache.rs / toml_file.rs (Cache), whose store truncates
  the file (File::create), and the CLI-layer cache of main.rs (MainCache),
  whose store opens without truncation, seeks to byte 0 and writes
  (OpenOptions read/write/create + seek + write_all), and which carries an
  enable/disable flag;
- the cache-directory setup (check_or_create_dir / init) over a small
  directory-level file-system model, with an environment flag saying whether
  directory creation would succeed.

Loader invocations are observable: with_cached returns, besides the result
and the updated directory contents, the number of times the loader ran.
-/

namespace Yaoaic

/-- Bytes of a file, as a list of naturals. -/
abbrev Bytes := List Nat

/-- Contents of the cache directory: file name to file bytes. -/
abbrev FS := List (String × Bytes)

/-- Read a file from the cache directory; none when the file does not exist. -/
def FS.read : FS → String → Option Bytes
  | [], _ => none
  | (k, v) :: rest, name => if k == name then some v else FS.read rest name

/-- Write with truncation (Rust File::create then write_all): the file holds
exactly the new bytes afterwards; the file is created if absent. -/
def FS.writeTrunc : FS → String → Bytes → FS
  | [], name, c => [(name, c)]
  | (k, v) :: rest, name, c =>
    if k == name then (name, c) :: rest else (k, v) :: FS.writeTrunc rest name c

/-- Write without truncation (Rust OpenOptions read/write/create, seek to
byte 0, write_all): new bytes overwrite the front of the old content, and any
tail of a longer old content survives. The file is created if absent. -/
def FS.writeNoTrunc (fs : FS) (name : String) (c : Bytes) : FS :=
  match FS.read fs name with
  | none => FS.writeTrunc fs name c
  | some old => FS.writeTrunc fs name (c ++ old.drop c.length)

/-- The error taxonomy visible to the cache code (anyhow errors by source). -/
inductive Err where
  | notFound (name : String)
  | badFormat (name : String)
  | loaderFail (msg : String)
  | setup (msg : String)
  deriving DecidableEq, Repr

/-- Outcome of a Rust computation that may also panic (Duration subtraction
underflow unwinds instead of returning). -/
inductive Res (T : Type) where
  | panicked : Res T
  | error (e : Err) : Res T
  | ok (v : T) : Res T
  deriving DecidableEq, Repr

/-- Abstract (de)serialization of a type through the TOML document format. -/
structure Codec (T : Type) where
  ser : T → Bytes
  deser : Bytes → Option T

/-- A codec is lawful when deserialization inverts serialization. -/
def Codec.lawful {T : Type} (c : Codec T) : Prop :=
  ∀ v, c.deser (c.ser v) = some v

/-- The cached envelope of cache.rs (struct Value): creation time plus payload. -/
structure Value (T : Type) where
  created : Nat
  value : T
  deriving DecidableEq, Repr

/-- toml_file.rs load: open the file (error when absent), read it, parse it
(error when the bytes do not deserialize). -/
def toml.load {T : Type} (c : Codec T) (fs : FS) (path : String) : Except Err T :=
  match FS.read fs path with
  | none => .error (.notFound path)
  | some bytes =>
    match c.deser bytes with
    | none => .error (.badFormat path)
    | some v => .ok v

/-- toml_file.rs replace: serialize and write through File::create, which
truncates, so the file holds exactly the new serialization. -/
def toml.replace {U : Type} (c : Codec U) (fs : FS) (path : String) (v : U) : FS :=
  FS.writeTrunc fs path (c.ser v)

/-- The library cache of cache.rs. The directory path is factored out: FS is
the directory contents, so only max_cache_age remains as state. -/
structure Cache where
  maxCacheAge : Nat
  deriving DecidableEq, Repr

/-- cache.rs load_cached: toml load of the named entry, propagating its error
with the question-mark operator, then the freshness test
now - created < max_cache_age, whose Duration subtraction panics when
created > now. -/
def Cache.load_cached {T : Type} (cache : Cache) (ce : Codec (Value T)) (fs : FS)
    (now : Nat) (file_name : String) : Res (Option T) :=
  match toml.load ce fs file_name with
  | .error e => .error e
  | .ok cached =>
    if now < cached.created then .panicked
    else if now - cached.created < cache.maxCacheAge then .ok (some cached.value)
    else .ok none

/-- cache.rs store_cache: serialize the given value as is (no wrapping happens
here) and write it through toml replace. -/
def Cache.store_cache {U : Type} (_cache : Cache) (cu : Codec U) (fs : FS)
    (file_name : String) (to_cache : U) : FS :=
  toml.replace cu fs file_name to_cache

/-- cache.rs with_cached. The source reads the literal name prompts.toml
(not file_name), falls through to the loader on Ok(None) or Err, wraps the
loader result in a fresh envelope stamped nowWrap, and stores it under
file_name. The last component counts loader invocations. -/
def Cache.with_cached {T I : Type} (cache : Cache) (ce : Codec (Value T)) (fs : FS)
    (now nowWrap : Nat) (file_name : String) (input : I)
    (loader : I → Except Err T) : Res T × FS × Nat :=
  match cache.load_cached ce fs now "prompts.toml" with
  | .ok (some x) => (.ok x, fs, 0)
  | .panicked => (.panicked, fs, 0)
  | .ok none | .error _ =>
    match loader input with
    | .error e => (.error e, fs, 1)
    | .ok r =>
      let cached : Value T := { created := nowWrap, value := r }
      (.ok cached.value, cache.store_cache ce fs file_name cached, 1)

/-- Directory-level file-system node: a regular file or a directory. -/
inductive FsNode where
  | file
  | dir
  deriving DecidableEq, Repr

/-- Directory-level file system: path to node, for modeling setup. -/
abbrev DirFS := List (String × FsNode)

/-- fs::metadata on the directory-level model. -/
def DirFS.metadata : DirFS → String → Option FsNode
  | [], _ => none
  | (k, v) :: rest, p => if k == p then some v else DirFS.metadata rest p

/-- cache.rs check_or_create_dir: bail when the path exists and is not a
directory; succeed when it is a directory; otherwise attempt fs::create_dir,
whose success is the environment flag canCreate. Returns the outcome and the
resulting directory-level file system. -/
def check_or_create_dir (dfs : DirFS) (canCreate : Bool) (dir : String) :
    Except Err Unit × DirFS :=
  match DirFS.metadata dfs dir with
  | some .file => (.error (.setup (dir ++ " exists but it is not a dir.")), dfs)
  | some .dir => (.ok (), dfs)
  | none =>
    if canCreate then (.ok (), (dir, .dir) :: dfs)
    else (.error (.setup ("unable to create dir " ++ dir)), dfs)

/-- cache.rs Cache::init: check_or_create_dir, then build the cache. -/
def Cache.init (dfs : DirFS) (canCreate : Bool) (dir : String) (maxCacheAge : Nat) :
    Except Err Cache × DirFS :=
  match check_or_create_dir dfs canCreate dir with
  | (.error e, dfs2) => (.error e, dfs2)
  | (.ok _, dfs2) => (.ok { maxCacheAge := maxCacheAge }, dfs2)

/-- The CLI-layer cache of main.rs, carrying the enable/disable flag. -/
structure MainCache where
  cache : Bool
  maxCacheAge : Nat
  deriving DecidableEq, Repr

/-- main.rs load_cached: when the flag is off, return Ok(None) before any disk
access; otherwise read the file (error when absent), parse the envelope
(error on bad format) and apply the same freshness test as cache.rs. -/
def MainCache.load_cached {T : Type} (mc : MainCache) (ce : Codec (Value T)) (fs : FS)
    (now : Nat) (file_name : String) : Res (Option T) :=
  if mc.cache = false then .ok none
  else
    match FS.read fs file_name with
    | none => .error (.notFound file_name)
    | some bytes =>
      match ce.deser bytes with
      | none => .error (.badFormat file_name)
      | some cached =>
        if now < cached.created then .panicked
        else if now - cached.created < mc.maxCacheAge then .ok (some cached.value)
        else .ok none

/-- main.rs store_cache: serialize and write through OpenOptions without
truncation, seek to byte 0 and write_all, so a longer previous content keeps
its tail bytes. -/
def MainCache.store_cache {U : Type} (_mc : MainCache) (cu : Codec U) (fs : FS)
    (file_name : String) (to_cache : U) : FS :=
  FS.writeNoTrunc fs file_name (cu.ser to_cache)

/-- main.rs with_cached: like the cache.rs version (including the literal
prompts.toml read), except that the store is skipped when the flag is off. -/
def MainCache.with_cached {T I : Type} (mc : MainCache) (ce : Codec (Value T)) (fs : FS)
    (now nowWrap : Nat) (file_name : String) (input : I)
    (loader : I → Except Err T) : Res T × FS × Nat :=
  match mc.load_cached ce fs now "prompts.toml" with
  | .ok (some x) => (.ok x, fs, 0)
  | .panicked => (.panicked, fs, 0)
  | .ok none | .error _ =>
    match loader input with
    | .error e => (.error e, fs, 1)
    | .ok r =>
      let cached : Value T := { created := nowWrap, value := r }
      if mc.cache then (.ok cached.value, mc.store_cache ce fs file_name cached, 1)
      else (.ok cached.value, fs, 1)

/-- Concrete codec for Nat payloads, used by concrete witnesses. The leading
tag 1 marks the serialization of a bare payload. -/
def natCodec : Codec Nat where
  ser n := [1, n]
  deser bs :=
    match bs with
    | [1, n] => some n
    | _ => none

/-- Concrete codec for envelopes of Nat. The leading tag 0 marks the envelope
schema, so bare-payload serializations do not parse as envelopes, just as a
TOML document without the created and value keys does not parse as Value. -/
def envNatCodec : Codec (Value Nat) where
  ser e := [0, e.created, e.value]
  deser bs :=
    match bs with
    | [0, c, v] => some { created := c, value := v }
    | _ => none

/-- Concrete codec for envelopes of Nat lists, with variable-length
serializations, used to exhibit byte-level store behavior. -/
def envListCodec : Codec (Value (List Nat)) where
  ser e := 0 :: e.created :: e.value
  deser bs :=
    match bs with
    | 0 :: c :: rest => some { created := c, value := rest }
    | _ => none

/-- Reading back a truncating write yields exactly the written bytes. -/
theorem read_writeTrunc_self (fs : FS) (name : String) (c : Bytes) :
    FS.read (FS.writeTrunc fs name c) name = some c := by
  induction fs with
  | nil => simp [FS.writeTrunc, FS.read]
  | cons kv rest ih =>
    obtain ⟨k, v⟩ := kv
    by_cases h : k = name
    · subst h
      simp [FS.writeTrunc, FS.read]
    · simp [FS.writeTrunc, FS.read, h, ih]

/-- Claim C1: with_cached is claimed to first attempt load_cached on the same
name it was given. The source instead reads the literal name prompts.toml, so
for the name a on an empty cache the first call does invoke the loader once
and persists under a, but the second call with a different loader misses again
(it reads prompts.toml, which still does not exist), invokes the second loader
(count 1, not 0) and returns the second loader's value 2 instead of the first
cached result 1. -/
theorem C1_hardcoded_load_name :
    Cache.with_cached { maxCacheAge := 100 } envNatCodec [] 10 10 "a" ()
        (fun _ : Unit => Except.ok 1) = (Res.ok 1, [("a", [0, 10, 1])], 1) ∧
    Cache.with_cached { maxCacheAge := 100 } envNatCodec [("a", [0, 10, 1])] 11 11 "a" ()
        (fun _ : Unit => Except.ok 2) = (Res.ok 2, [("a", [0, 11, 2])], 1) :=
  ⟨rfl, rfl⟩

/-- Claim C2 counterexample: store_cache does not wrap its argument in an
envelope; it serializes it as given. Storing the bare value 7 under a and
immediately loading a yields a format error (the bytes do not parse as an
envelope), not Some 7 as the claim states. -/
theorem C2_counterexample :
    Cache.load_cached { maxCacheAge := 100 } envNatCodec
        (Cache.store_cache { maxCacheAge := 100 } natCodec [] "a" 7) 10 "a" =
      Res.error (Err.badFormat "a") ∧
    Cache.load_cached { maxCacheAge := 100 } envNatCodec
        (Cache.store_cache { maxCacheAge := 100 } natCodec [] "a" 7) 10 "a" ≠
      Res.ok (some 7) :=
  ⟨rfl, by decide⟩

/-- Claim C2 amended: store_cache writes exactly the serialization of the
value it is given, without wrapping (wrapping is done by its callers). The
round-trip holds when the stored value is itself an envelope: after
store_cache of an envelope created at t0, load_cached at any now with
t0 ≤ now and now - t0 < max_age returns Some of the payload, structurally
unchanged. -/
theorem C2_amended {T : Type} (ce : Codec (Value T)) (hce : ce.lawful)
    (cache : Cache) (fs : FS) (name : String) (t0 now : Nat) (v : T)
    (h1 : t0 ≤ now) (h2 : now - t0 < cache.maxCacheAge) :
    cache.load_cached ce
        (cache.store_cache ce fs name { created := t0, value := v }) now name =
      Res.ok (some v) := by
  have hc := hce { created := t0, value := v }
  simp [Cache.load_cached, Cache.store_cache, toml.load, toml.replace,
    read_writeTrunc_self, hc, Nat.not_lt.mpr h1, h2]

/-- Witness for the amended C2 at concrete inputs. -/
theorem C2_amended_witness :
    Cache.load_cached { maxCacheAge := 100 } envNatCodec
        (Cache.store_cache { maxCacheAge := 100 } envNatCodec []
          "a" { created := 5, value := 7 }) 10 "a" = Res.ok (some 7) :=
  C2_amended envNatCodec (fun v => by cases v; rfl) { maxCacheAge := 100 } [] "a" 5 10 7
    (by decide) (by decide)

/-- Claim C3: the claim (and the doc comment of load_cached) says that an
absent entry yields Ok(None). The source propagates the toml load error with
the question-mark operator, so on an empty directory load_cached returns the
NotFound error, not Ok(None). -/
theorem C3_absence_is_error :
    Cache.load_cached { maxCacheAge := 100 } envNatCodec [] 10 "x" =
      Res.error (Err.notFound "x") ∧
    Cache.load_cached { maxCacheAge := 100 } envNatCodec [] 10 "x" ≠
      (Res.ok none : Res (Option Nat)) :=
  ⟨rfl, by decide⟩

/-- Claim C4 counterexample: for an entry created at 5 read at now = 3
(created in the future), load_cached panics on the Duration subtraction
now - created instead of returning the value as still fresh. -/
theorem C4_counterexample :
    Cache.load_cached { maxCacheAge := 100 } envNatCodec [("b", [0, 5, 3])] 3 "b" =
      Res.panicked ∧
    Cache.load_cached { maxCacheAge := 100 } envNatCodec [("b", [0, 5, 3])] 3 "b" ≠
      Res.ok (some 3) :=
  ⟨rfl, by decide⟩

/-- Claim C4 amended: whenever the stored envelope's created lies strictly in
the future (now < created), the subtraction now - created underflows and
load_cached panics; a value is only ever returned when created ≤ now. -/
theorem C4_amended {T : Type} (ce : Codec (Value T)) (cache : Cache) (fs : FS)
    (name : String) (env : Value T) (now : Nat)
    (hread : FS.read fs name = some (ce.ser env))
    (hde : ce.deser (ce.ser env) = some env)
    (h : now < env.created) :
    cache.load_cached ce fs now name = Res.panicked := by
  simp [Cache.load_cached, toml.load, hread, hde, h]

/-- Witness for the amended C4 at concrete inputs. -/
theorem C4_amended_witness :
    Cache.load_cached { maxCacheAge := 100 } envNatCodec [("c", [0, 9, 4])] 2 "c" =
      Res.panicked :=
  C4_amended envNatCodec { maxCacheAge := 100 } [("c", [0, 9, 4])] "c"
    { created := 9, value := 4 } 2 rfl rfl (by decide)

/-- Claim C5 counterexample: an entry created at t0 = 5 with max_age 9 read
at now = 2 — a time strictly before t0 + max_age = 14, where the claim
promises Some — makes load_cached panic, because the clock is before the
creation time and the Duration subtraction underflows. -/
theorem C5_counterexample :
    Cache.load_cached { maxCacheAge := 9 } envNatCodec [("d", [0, 5, 7])] 2 "d" =
      Res.panicked ∧
    Cache.load_cached { maxCacheAge := 9 } envNatCodec [("d", [0, 5, 7])] 2 "d" ≠
      Res.ok (some 7) :=
  ⟨rfl, by decide⟩

/-- Claim C5 amended: for an entry created at t0, load_cached at any now with
t0 ≤ now < t0 + max_age returns Some of the payload, and at any now with
t0 + max_age ≤ now returns Ok(None) (the stale entry is treated as absent:
load_cached takes the directory contents as read-only input and deletes
nothing). Times before t0 are excluded, since there the subtraction panics. -/
theorem C5_amended {T : Type} (ce : Codec (Value T)) (cache : Cache) (fs : FS)
    (name : String) (t0 : Nat) (v : T) (now : Nat)
    (hread : FS.read fs name = some (ce.ser { created := t0, value := v }))
    (hde : ce.deser (ce.ser { created := t0, value := v }) =
      some { created := t0, value := v }) :
    (t0 ≤ now → now < t0 + cache.maxCacheAge →
      cache.load_cached ce fs now name = Res.ok (some v)) ∧
    (t0 + cache.maxCacheAge ≤ now →
      cache.load_cached ce fs now name = Res.ok none) := by
  constructor
  · intro h1 h2
    have hnl : ¬ now < t0 := Nat.not_lt.mpr h1
    have hlt : now - t0 < cache.maxCacheAge := by omega
    simp [Cache.load_cached, toml.load, hread, hde, hnl, hlt]
  · intro h1
    have hnl : ¬ now < t0 := by omega
    have hge : ¬ now - t0 < cache.maxCacheAge := by omega
    simp [Cache.load_cached, toml.load, hread, hde, hnl, hge]

/-- Witness for the amended C5 at concrete inputs: t0 = 5, max_age = 9, so
now = 13 is fresh and now = 14 is stale. -/
theorem C5_amended_witness :
    Cache.load_cached { maxCacheAge := 9 } envNatCodec [("e", [0, 5, 7])] 13 "e" =
      Res.ok (some 7) ∧
    Cache.load_cached { maxCacheAge := 9 } envNatCodec [("e", [0, 5, 7])] 14 "e" =
      Res.ok none :=
  ⟨(C5_amended envNatCodec { maxCacheAge := 9 } [("e", [0, 5, 7])] "e" 5 7 13
      rfl rfl).1 (by decide) (by decide),
    (C5_amended envNatCodec { maxCacheAge := 9 } [("e", [0, 5, 7])] "e" 5 7 14
      rfl rfl).2 (by decide)⟩

/-- Claim C6: when the initial cache read misses (Ok(None) or any error) and
the loader fails, with_cached returns the loader's error verbatim, performs
no write (the directory contents are returned unchanged), and the loader ran
exactly once. -/
theorem C6_loader_error_untouched {T I : Type} (cache : Cache) (ce : Codec (Value T))
    (fs : FS) (now nowWrap : Nat) (name : String) (input : I)
    (loader : I → Except Err T) (e : Err)
    (hmiss : cache.load_cached ce fs now "prompts.toml" = Res.ok none ∨
      ∃ e2, cache.load_cached ce fs now "prompts.toml" = Res.error e2)
    (hload : loader input = Except.error e) :
    cache.with_cached ce fs now nowWrap name input loader = (Res.error e, fs, 1) := by
  unfold Cache.with_cached
  rcases hmiss with h | ⟨e2, h⟩ <;> rw [h] <;> simp [hload]

/-- Witness for C6 at concrete inputs: empty cache, failing loader. -/
theorem C6_witness :
    Cache.with_cached { maxCacheAge := 100 } envNatCodec [] 10 10 "a" ()
        (fun _ : Unit => Except.error (Err.loaderFail "netfail")) =
      (Res.error (Err.loaderFail "netfail"), [], 1) :=
  C6_loader_error_untouched { maxCacheAge := 100 } envNatCodec [] 10 10 "a" ()
    (fun _ : Unit => Except.error (Err.loaderFail "netfail")) (Err.loaderFail "netfail")
    (Or.inr ⟨Err.notFound "prompts.toml", rfl⟩) rfl

/-- Claim C7: the claim promises that with_cached on an entry holding
non-conforming bytes invokes the loader and overwrites the entry. Because the
source reads the literal name prompts.toml, calling with_cached for the name
a whose file holds the junk byte 99 (which does not deserialize) while
prompts.toml holds a fresh envelope returns the prompts.toml payload 42, runs
the loader zero times, and leaves the junk at a untouched. -/
theorem C7_corrupt_entry_not_healed :
    envNatCodec.deser [99] = none ∧
    Cache.with_cached { maxCacheAge := 100 } envNatCodec
        [("prompts.toml", [0, 9, 42]), ("a", [99])] 10 10 "a" ()
        (fun _ : Unit => Except.ok 5) =
      (Res.ok 42, [("prompts.toml", [0, 9, 42]), ("a", [99])], 0) :=
  ⟨rfl, rfl⟩

/-- Claim C8: the claim promises that every store fully replaces the file
content. The CLI-layer store (main.rs store_cache) opens without truncation,
seeks to byte 0 and writes, so storing the 3-byte serialization over a 5-byte
previous content leaves the last two old bytes in place: the file ends up
holding the new serialization plus the surviving tail, not exactly the new
serialization. -/
theorem C8_no_truncate_tail_survives :
    MainCache.store_cache { cache := true, maxCacheAge := 100 } envListCodec
        [("a", [0, 50, 7, 7, 7])] "a" { created := 60, value := [9] } =
      [("a", [0, 60, 9, 7, 7])] ∧
    envListCodec.ser { created := 60, value := [9] } = [0, 60, 9] ∧
    ([0, 60, 9, 7, 7] : Bytes) ≠ [0, 60, 9] :=
  ⟨rfl, rfl, by decide⟩

/-- Claim C9: init on a path that exists as a regular file returns the setup
error and changes nothing; on an absent path it creates the directory when
creation succeeds, and returns the creation failure as a setup error when it
does not, again changing nothing. -/
theorem C9_init_checks_dir (dfs : DirFS) (canCreate : Bool) (p : String) (age : Nat) :
    (DirFS.metadata dfs p = some FsNode.file →
      Cache.init dfs canCreate p age =
        (Except.error (Err.setup (p ++ " exists but it is not a dir.")), dfs)) ∧
    (DirFS.metadata dfs p = none → canCreate = true →
      Cache.init dfs canCreate p age =
        (Except.ok { maxCacheAge := age }, (p, FsNode.dir) :: dfs)) ∧
    (DirFS.metadata dfs p = none → canCreate = false →
      Cache.init dfs canCreate p age =
        (Except.error (Err.setup ("unable to create dir " ++ p)), dfs)) := by
  refine ⟨fun h => ?_, fun h hc => ?_, fun h hc => ?_⟩
  · simp [Cache.init, check_or_create_dir, h]
  · simp [Cache.init, check_or_create_dir, h, hc]
  · simp [Cache.init, check_or_create_dir, h, hc]

/-- Witness for C9 at concrete inputs: a regular file at the path, an absent
path with creation succeeding, and an absent path with creation failing. -/
theorem C9_witness :
    Cache.init [("p", FsNode.file)] true "p" 5 =
      (Except.error (Err.setup ("p" ++ " exists but it is not a dir.")),
        [("p", FsNode.file)]) ∧
    Cache.init [] true "q" 5 =
      (Except.ok { maxCacheAge := 5 }, [("q", FsNode.dir)]) ∧
    Cache.init [] false "r" 5 =
      (Except.error (Err.setup ("unable to create dir " ++ "r")), []) :=
  ⟨(C9_init_checks_dir [("p", FsNode.file)] true "p" 5).1 rfl,
    (C9_init_checks_dir [] true "q" 5).2.1 rfl rfl,
    (C9_init_checks_dir [] false "r" 5).2.2 rfl rfl⟩

/-- Claim C10: with the CLI-layer enable flag off, load_cached returns
Ok(None) for every directory content (so without consulting the disk), and
with_cached always runs the loader exactly once, propagates its outcome, and
never writes: the directory contents come back unchanged. -/
theorem C10_disabled_flag {T I : Type} (mc : MainCache) (h : mc.cache = false)
    (ce : Codec (Value T)) (fs : FS) (now nowWrap : Nat) (name : String)
    (input : I) (loader : I → Except Err T) :
    mc.load_cached ce fs now name = Res.ok none ∧
    mc.with_cached ce fs now nowWrap name input loader =
      (match loader input with
        | Except.ok r => (Res.ok r, fs, 1)
        | Except.error e => (Res.error e, fs, 1)) := by
  have hl : ∀ nm : String, mc.load_cached (T := T) ce fs now nm = Res.ok none := by
    intro nm
    simp [MainCache.load_cached, h]
  refine ⟨hl name, ?_⟩
  unfold MainCache.with_cached
  rw [hl]
  cases hld : loader input <;> simp [hld, h]

/-- Witness for C10 at concrete inputs: flag off, non-empty directory,
succeeding loader. -/
theorem C10_witness :
    MainCache.load_cached { cache := false, maxCacheAge := 100 } envNatCodec
        [("a", [0, 1, 2])] 10 "a" = Res.ok none ∧
    MainCache.with_cached { cache := false, maxCacheAge := 100 } envNatCodec
        [("a", [0, 1, 2])] 10 10 "a" () (fun _ : Unit => Except.ok 5) =
      (Res.ok 5, [("a", [0, 1, 2])], 1) := by
  have h := C10_disabled_flag { cache := false, maxCacheAge := 100 } rfl envNatCodec
    [("a", [0, 1, 2])] 10 10 "a" () (fun _ : Unit => Except.ok 5)
  exact ⟨h.1, h.2⟩

end Yaoaic
